import Mathlib

/-!
Shallow embedding of the maxlixiang/xinwenjuhe news-aggregation pipeline.

Source files embedded here:
  * test_Parser.py — `LLMNewsParser` (`_clean_html`, `_clean_llm_json`,
    `_call_llm`, `parse`) and the `ParseError` exception.
  * test-Fetcher.py — `NewsFetcher.fetch`, `FetchError`,
    `ContentValidationError`.

Python exceptions are modelled with `Except`; the nondeterministic LLM
service and the HTTP transport are modelled as explicit parameters
(functions from the request to an outcome).  Strings are Lean `String`s
(Python 3 `str` indexing/length are both in code points, matching
`String.length`/`List.take` on `String.data`).
-/

/-- `ParseError(step, reason)` of test_Parser.py (lines 17-22): a classified
parse failure carrying the failing stage and a reason text. -/
structure ParseError where
  step : String
  reason : String
deriving DecidableEq

/-- A single-quote character (Python quotes its repr/error messages with it). -/
def pySq : String := String.singleton (Char.ofNat 39)

/-- Python `s[:n]` on a string: the first `n` code points. -/
def pyTake (n : Nat) (s : String) : String := String.mk (s.data.take n)

/-- ASCII horizontal whitespace recognised by the regex `[ \t]+`
(test_Parser.py line 77). -/
def isHTc (c : Char) : Bool := c == ' ' || c == '\t'

/-- The newline character matched by the regex `\n+` (test_Parser.py line 79). -/
def isNLc (c : Char) : Bool := c == '\n'

/-- The ASCII whitespace stripped by Python `str.strip()` (non-ASCII
whitespace is not modelled; no input considered here contains any). -/
def pyWSc (c : Char) : Bool :=
  c == ' ' || c == '\t' || c == '\n' || c == '\r' || c == '\x0b' || c == '\x0c'

/-- `re.sub(p+, rep, s)` for a character class `p`: every maximal run of
characters satisfying `p` is replaced by the single character `rep`.
Instantiated with `isHTc, ' '` for line 77 and `isNLc, '\n'` for line 79
of test_Parser.py. -/
def collapseRuns (p : Char → Bool) (rep : Char) : List Char → List Char
  | [] => []
  | [c] => if p c then [rep] else [c]
  | a :: b :: rest =>
      if p a && p b then collapseRuns p rep (b :: rest)
      else if p a then rep :: collapseRuns p rep (b :: rest)
      else a :: collapseRuns p rep (b :: rest)

/-- Python `str.strip()` (test_Parser.py line 81): drop leading and trailing
whitespace. -/
def stripWSBoth (l : List Char) : List Char :=
  ((l.dropWhile pyWSc).reverse.dropWhile pyWSc).reverse

/-- Python `str.strip()` on a `String`. -/
def pyStrip (s : String) : String := String.mk (stripWSBoth s.data)

/-- The tags decomposed by `_clean_html` (test_Parser.py line 66). -/
def removedTags : List (List Char) :=
  ["script", "style", "noscript", "iframe", "header", "footer"].map String.data

/-- Scanner state for the HTML text-extraction model (see `scanHtml`). -/
inductive Mode where
  | text
  | tagName (closing : Bool) (nameRev : List Char)
  | tagRest (closing : Bool) (nameRev : List Char)
  | bang
  | bangDash
  | junk
  | comm
  | commD
  | commDD
  | raw (close : List Char) (prog : Nat)
  | rawEnd

/-- Close a pending text run: a non-empty run becomes one text node. -/
def pushRun (cur : List Char) (acc : List (List Char)) : List (List Char) :=
  if cur.isEmpty then acc else acc ++ [cur.reverse]

/-- Models the text extraction of `_clean_html` (test_Parser.py lines 63-73):
`BeautifulSoup(raw, "html.parser")` with `script/style/noscript/iframe/
header/footer` elements decomposed and comments extracted, followed by
`get_text(separator="\n")`, i.e. the document's text nodes in order.  A text
node is a maximal run of characters outside markup; the content of a removed
element (up to its matching close tag) and of comments contributes nothing.
`<` followed by a character that opens no tag is literal text, as in
html.parser.  Entity decoding and malformed-markup recovery of bs4 are not
modelled; no input considered here uses them.  Arguments: state, remaining
input, current text run (reversed), completed nodes. -/
def scanHtml : Mode → List Char → List Char → List (List Char) → List (List Char)
  | .text, [], cur, acc => pushRun cur acc
  | _, [], _, acc => acc
  | .text, c :: cs, cur, acc =>
      if c = '<' then
        match cs with
        | [] => pushRun ('<' :: cur) acc
        | '/' :: cs2 => scanHtml (.tagName true []) cs2 [] (pushRun cur acc)
        | '!' :: cs2 => scanHtml .bang cs2 [] (pushRun cur acc)
        | d :: cs2 =>
            if d.isAlpha then scanHtml (.tagName false [d.toLower]) cs2 [] (pushRun cur acc)
            else scanHtml .text (d :: cs2) ('<' :: cur) acc
      else scanHtml .text cs (c :: cur) acc
  | .tagName closing nameRev, c :: cs, _, acc =>
      if c = '>' then
        if !closing && removedTags.contains nameRev.reverse then
          scanHtml (.raw ('<' :: '/' :: nameRev.reverse) 0) cs [] acc
        else scanHtml .text cs [] acc
      else if pyWSc c || c = '/' then scanHtml (.tagRest closing nameRev) cs [] acc
      else scanHtml (.tagName closing (c.toLower :: nameRev)) cs [] acc
  | .tagRest closing nameRev, c :: cs, _, acc =>
      if c = '>' then
        if !closing && removedTags.contains nameRev.reverse then
          scanHtml (.raw ('<' :: '/' :: nameRev.reverse) 0) cs [] acc
        else scanHtml .text cs [] acc
      else scanHtml (.tagRest closing nameRev) cs [] acc
  | .bang, c :: cs, _, acc =>
      if c = '-' then scanHtml .bangDash cs [] acc
      else if c = '>' then scanHtml .text cs [] acc
      else scanHtml .junk cs [] acc
  | .bangDash, c :: cs, _, acc =>
      if c = '-' then scanHtml .comm cs [] acc
      else if c = '>' then scanHtml .text cs [] acc
      else scanHtml .junk cs [] acc
  | .junk, c :: cs, _, acc =>
      if c = '>' then scanHtml .text cs [] acc else scanHtml .junk cs [] acc
  | .comm, c :: cs, _, acc =>
      if c = '-' then scanHtml .commD cs [] acc else scanHtml .comm cs [] acc
  | .commD, c :: cs, _, acc =>
      if c = '-' then scanHtml .commDD cs [] acc else scanHtml .comm cs [] acc
  | .commDD, c :: cs, _, acc =>
      if c = '>' then scanHtml .text cs [] acc
      else if c = '-' then scanHtml .commDD cs [] acc
      else scanHtml .comm cs [] acc
  | .raw close prog, c :: cs, _, acc =>
      if h : prog < close.length then
        if c = close.get ⟨prog, h⟩ then
          if prog + 1 = close.length then scanHtml .rawEnd cs [] acc
          else scanHtml (.raw close (prog + 1)) cs [] acc
        else if c = '<' then scanHtml (.raw close 1) cs [] acc
        else scanHtml (.raw close 0) cs [] acc
      else scanHtml .rawEnd cs [] acc
  | .rawEnd, c :: cs, _, acc =>
      if c = '>' then scanHtml .text cs [] acc else scanHtml .rawEnd cs [] acc

/-- `"\n".join` of the text nodes: the `separator="\n"` of `get_text`
(test_Parser.py line 73). -/
def joinNL : List (List Char) → List Char
  | [] => []
  | [n] => n
  | n :: rest => n ++ '\n' :: joinNL rest

/-- The whole text pipeline of `_clean_html` before the emptiness check
(test_Parser.py lines 63-81): extract text, collapse `[ \t]+` to a space,
collapse `\n+` to a newline, strip. -/
def cleanHtmlChars (cs : List Char) : List Char :=
  stripWSBoth (collapseRuns isNLc '\n' (collapseRuns isHTc ' '
    (joinNL (scanHtml .text cs [] []))))

/-- The reason of the `ParseError` produced for markup with no extractable
text.  `_clean_html` raises `ParseError("html_clean", "HTML清理后无有效文本")`
inside its own `try` (line 84); `ParseError` extends `Exception`, so the
`except Exception` clause at line 88 catches it and re-wraps it as
`ParseError("html_clean", f"HTML解析失败: {str(e)[:200]}")`, where `str(e)`
is `"解析失败（html_clean）: HTML清理后无有效文本"` (from line 22).  `[:200]`
is a no-op on this short text. -/
def emptyCleanReason : String :=
  "HTML解析失败: 解析失败（html_clean）: HTML清理后无有效文本"

/-- `_clean_html` (test_Parser.py lines 56-89). -/
def cleanHtml (raw : String) : Except ParseError String :=
  let t := cleanHtmlChars raw.data
  if t = [] then .error ⟨"html_clean", emptyCleanReason⟩
  else .ok (String.mk t)

/-- The values produced by `json.loads`: JSON values, with Python `None`,
`True`/`False`, `int`, `float`, `str`, `list`, `dict` as their images.
A non-integral numeral is kept as its lexeme (`numF`); Python would convert
it to a float, whose only use in the embedded code is in error-message
interpolation. -/
inductive JValue where
  | null
  | bool (b : Bool)
  | num (n : Int)
  | numF (lexeme : String)
  | str (s : String)
  | arr (xs : List JValue)
  | obj (fields : List (String × JValue))

/-- The image of a JSON object under `json.loads`: a Python `dict` in
insertion order. -/
abbrev JObj := List (String × JValue)

/-- Python `dict` lookup / `dict.get` (`None`, i.e. `none`, when absent). -/
def jGet : JObj → String → Option JValue
  | [], _ => none
  | (k, v) :: rest, key => if k = key then some v else jGet rest key

/-- Python `dict` insertion as performed by `json.loads`: a duplicate key
keeps its first position and takes the later value. -/
def setKey : JObj → String → JValue → JObj
  | [], key, v => [(key, v)]
  | (k, w) :: rest, key, v =>
      if k = key then (k, v) :: rest else (k, w) :: setKey rest key v

/-- The whitespace skipped between JSON tokens (`json.loads`). -/
def isJWSc (c : Char) : Bool := c == ' ' || c == '\t' || c == '\n' || c == '\r'

/-- Skip inter-token whitespace. -/
def skipWsL (cs : List Char) : List Char := cs.dropWhile isJWSc

/-- JSON string escapes accepted by `json.loads` (`\uXXXX` is not modelled;
no input considered here uses it). -/
def escChar : Char → Option Char
  | '"' => some '"'
  | '\\' => some '\\'
  | '/' => some '/'
  | 'b' => some '\x08'
  | 'f' => some '\x0c'
  | 'n' => some '\n'
  | 'r' => some '\r'
  | 't' => some '\t'
  | _ => none

/-- Parse the body of a JSON string after the opening quote, returning the
decoded characters and the input after the closing quote.  `json.loads` in
its default strict mode rejects raw control characters inside strings. -/
def parseStringBody : List Char → Option (List Char × List Char)
  | [] => none
  | c :: cs =>
      if c = '"' then some ([], cs)
      else if c = '\\' then
        match cs with
        | [] => none
        | e :: cs2 =>
            match escChar e with
            | none => none
            | some ch => (parseStringBody cs2).map (fun p => (ch :: p.1, p.2))
      else if c.toNat < 32 then none
      else (parseStringBody cs).map (fun p => (c :: p.1, p.2))

/-- Numeric value of a digit list (most significant first). -/
def digitsToNat (ds : List Char) : Nat :=
  ds.foldl (fun acc c => 10 * acc + (c.toNat - 48)) 0

/-- Parse a JSON numeral.  An integral numeral becomes `JValue.num`; one with
a fraction or exponent becomes `JValue.numF` carrying its lexeme (Python
would convert it to a float).  JSON rejects leading zeros and a leading
`+`. -/
def parseNumber (cs : List Char) : Option (JValue × List Char) :=
  let (neg, cs1) := match cs with
    | '-' :: rest => (true, rest)
    | _ => (false, cs)
  let intDigits := cs1.takeWhile Char.isDigit
  let cs2 := cs1.dropWhile Char.isDigit
  if intDigits.isEmpty then none
  else if intDigits.head? = some '0' ∧ intDigits.length > 1 then none
  else
    let fracPart : Option (List Char × List Char) := match cs2 with
      | '.' :: cs3 =>
          let fd := cs3.takeWhile Char.isDigit
          if fd.isEmpty then none else some ('.' :: fd, cs3.dropWhile Char.isDigit)
      | _ => some ([], cs2)
    match fracPart with
    | none => none
    | some (fracCs, cs4) =>
        let expPart : Option (List Char × List Char) := match cs4 with
          | 'e' :: cs5 => parseExpTail cs5
          | 'E' :: cs5 => parseExpTail cs5
          | _ => some ([], cs4)
        match expPart with
        | none => none
        | some (expCs, cs6) =>
            if fracCs.isEmpty ∧ expCs.isEmpty then
              let n : Int := Int.ofNat (digitsToNat intDigits)
              some (.num (if neg then -n else n), cs6)
            else
              let lexeme := (if neg then ['-'] else []) ++ intDigits ++ fracCs ++ expCs
              some (.numF (String.mk lexeme), cs6)
where
  /-- Exponent tail after `e`/`E`: optional sign then digits. -/
  parseExpTail (cs : List Char) : Option (List Char × List Char) :=
    let (sgn, cs1) := match cs with
      | '+' :: rest => (['+'], rest)
      | '-' :: rest => (['-'], rest)
      | _ => (([] : List Char), cs)
    let ds := cs1.takeWhile Char.isDigit
    if ds.isEmpty then none
    else some ('e' :: sgn ++ ds, cs1.dropWhile Char.isDigit)

mutual

/-- Parse one JSON value (model of the `json.loads` grammar), returning the
value and the remaining input.  `fuel` bounds the recursion depth; the call
depth grows only after consuming input, so `length + 1` fuel suffices. -/
def parseVal : Nat → List Char → Option (JValue × List Char)
  | 0, _ => none
  | fuel + 1, cs =>
      match skipWsL cs with
      | [] => none
      | c :: rest =>
          if c = '\x7b' then parseObjRest fuel true [] rest
          else if c = '[' then parseArrRest fuel true [] rest
          else if c = '"' then
            match parseStringBody rest with
            | some (s, rest2) => some (.str (String.mk s), rest2)
            | none => none
          else if c = 'n' then
            if ['u', 'l', 'l'].isPrefixOf rest then some (.null, rest.drop 3) else none
          else if c = 't' then
            if ['r', 'u', 'e'].isPrefixOf rest then some (.bool true, rest.drop 3) else none
          else if c = 'f' then
            if ['a', 'l', 's', 'e'].isPrefixOf rest then some (.bool false, rest.drop 4)
            else none
          else parseNumber (c :: rest)

/-- Parse the members of a JSON object after the opening brace.  `first` is
true until a member has been parsed (only then may the object close
immediately; a trailing comma is invalid JSON). -/
def parseObjRest : Nat → Bool → JObj → List Char → Option (JValue × List Char)
  | 0, _, _, _ => none
  | fuel + 1, first, acc, cs =>
      match skipWsL cs with
      | [] => none
      | c :: rest =>
          if c = '\x7d' then if first then some (.obj acc, rest) else none
          else if c = '"' then
            match parseStringBody rest with
            | none => none
            | some (k, rest2) =>
                match skipWsL rest2 with
                | ':' :: rest3 =>
                    match parseVal fuel rest3 with
                    | none => none
                    | some (v, rest4) =>
                        let acc2 := setKey acc (String.mk k) v
                        match skipWsL rest4 with
                        | ',' :: rest5 => parseObjRest fuel false acc2 rest5
                        | '\x7d' :: rest5 => some (.obj acc2, rest5)
                        | _ => none
                | _ => none
          else none

/-- Parse the elements of a JSON array after the opening bracket. -/
def parseArrRest : Nat → Bool → List JValue → List Char → Option (JValue × List Char)
  | 0, _, _, _ => none
  | fuel + 1, first, acc, cs =>
      match skipWsL cs with
      | [] => none
      | c :: rest =>
          if c = ']' then if first then some (.arr acc, rest) else none
          else
            match parseVal fuel (c :: rest) with
            | none => none
            | some (v, rest2) =>
                let acc2 := acc ++ [v]
                match skipWsL rest2 with
                | ',' :: rest3 => parseArrRest fuel false acc2 rest3
                | ']' :: rest3 => some (.arr acc2, rest3)
                | _ => none

end

/-- `json.loads` (test_Parser.py line 154): parse one JSON value and require
that only whitespace follows; `none` models `json.JSONDecodeError`. -/
def jsonLoads (s : String) : Option JValue :=
  match parseVal (s.data.length + 1) s.data with
  | some (v, rest) => if (skipWsL rest).isEmpty then some v else none
  | none => none

mutual

/-- Python `repr`/`str` of a `json.loads` value, as interpolated into the
missing-field message (test_Parser.py line 167).  String escaping inside
`repr` and float re-formatting are not modelled (no proved statement
inspects this text). -/
def pyRepr : JValue → String
  | .null => "None"
  | .bool b => if b then "True" else "False"
  | .num n => toString n
  | .numF lex => lex
  | .str s => pySq ++ s ++ pySq
  | .arr xs => "[" ++ pyReprArr xs ++ "]"
  | .obj fs => "\x7b" ++ pyReprFields fs ++ "\x7d"

/-- Comma-separated `repr`s of list elements. -/
def pyReprArr : List JValue → String
  | [] => ""
  | [v] => pyRepr v
  | v :: rest => pyRepr v ++ ", " ++ pyReprArr rest

/-- Comma-separated `'key': repr` pairs of a dict. -/
def pyReprFields : List (String × JValue) → String
  | [] => ""
  | [(k, v)] => pySq ++ k ++ pySq ++ ": " ++ pyRepr v
  | (k, v) :: rest => pySq ++ k ++ pySq ++ ": " ++ pyRepr v ++ ", " ++ pyReprFields rest

end

/-- Python `str` of a `json.loads` value inside an f-string: identical to
`repr` except that a `str` value interpolates without quotes. -/
def pyStrOf : JValue → String
  | .str s => s
  | v => pyRepr v

/-- `required_fields` (test_Parser.py line 162). -/
def requiredFields : List String := ["title", "content", "publish_time", "author"]

/-- Python `repr` of a list of strings, for the `{missing_fields}`
interpolation at line 166. -/
def pyReprStrList (l : List String) : String :=
  "[" ++ String.intercalate ", " (l.map (fun f => pySq ++ f ++ pySq)) ++ "]"

/-- The missing-required-field message (test_Parser.py lines 164-168). -/
def missingMsg (missing : List String) (dataStr : String) : String :=
  "JSON缺少必填字段：" ++ pyReprStrList missing ++ "，解析结果：" ++ dataStr

/-- The generic `except Exception` handler of `_call_llm` (test_Parser.py
lines 186-187): any unclassified exception with text `m` becomes
`ParseError("llm_request", f"LLM交互未知错误：{str(e)[:200]}")`. -/
def genericLLMErr (m : String) : ParseError :=
  ⟨"llm_request", "LLM交互未知错误：" ++ pyTake 200 m⟩

/-- `str(e)` of the `NameError` raised at test_Parser.py line 158: the
`except json.JSONDecodeError` handler interpolates `clean_json_str[:200]`
into its message, but no `clean_json_str` is ever assigned in `_call_llm`
(the `_clean_llm_json` fallback is never invoked), so evaluating the
f-string raises `NameError` before the intended `ParseError("json_parse",…)`
exists. -/
def nameErrStr : String :=
  "name " ++ pySq ++ "clean_json_str" ++ pySq ++ " is not defined"

/-- `str(e)` of the `TypeError` raised by `f in structured_data` when the
decoded top-level value of type `ty` supports no membership test. -/
def typeErrStr (ty : String) : String :=
  "argument of type " ++ pySq ++ ty ++ pySq ++ " is not iterable"

/-- `str(e)` of the `AttributeError` raised by `structured_data.get` when the
decoded top-level value of type `ty` is not a dict. -/
def attrErrStr (ty : String) : String :=
  pySq ++ ty ++ pySq ++ " object has no attribute " ++ pySq ++ "get" ++ pySq

/-- Does the Python element-membership test `f in xs` hold for a list? -/
def listHasStr (f : String) (xs : List JValue) : Bool :=
  xs.any fun v => match v with | .str t => t == f | _ => false

/-- First index (if any) at which `pat` occurs as a contiguous sublist. -/
def findSub (pat : List Char) : List Char → Option Nat
  | [] => if pat.isEmpty then some 0 else none
  | c :: rest =>
      if pat.isPrefixOf (c :: rest) then some 0 else (findSub pat rest).map (· + 1)

/-- Python substring test `pat in hay` on strings. -/
def strContains (hay pat : String) : Bool := (findSub pat.data hay.data).isSome

/-- The field validation of `_call_llm` on a decoded dict (test_Parser.py
lines 161-176): every required field must be a key (line 163, else
`ParseError("json_parse", …)`), and a dict whose `title` and `content` are
both `None` is rejected as `ParseError("not_news", …)` (lines 170-174);
otherwise the dict itself is returned. -/
def validateObj (fields : JObj) : Except ParseError JObj :=
  let missing := requiredFields.filter fun f => (jGet fields f).isNone
  if missing.isEmpty then
    match jGet fields "title", jGet fields "content" with
    | some .null, some .null =>
        .error ⟨"not_news", "该页面不是有效的新闻内容（无标题和正文）"⟩
    | _, _ => .ok fields
  else .error ⟨"json_parse", missingMsg missing (pyStrOf (.obj fields))⟩

/-- The processing of a decoded top-level JSON value by `_call_llm`
(test_Parser.py lines 161-176), following Python runtime semantics when the
value is not a dict: `f in structured_data` is element membership for a
list, substring containment for a str, and a `TypeError` otherwise; when
that test succeeds for all four names on a non-dict, `structured_data.get`
raises `AttributeError`.  Those exceptions reach the generic handler at
line 186. -/
def handleDecoded : JValue → Except ParseError JObj
  | .obj fields => validateObj fields
  | .arr xs =>
      let missing := requiredFields.filter fun f => !listHasStr f xs
      if missing.isEmpty then .error (genericLLMErr (attrErrStr "list"))
      else .error ⟨"json_parse", missingMsg missing (pyStrOf (.arr xs))⟩
  | .str s =>
      let missing := requiredFields.filter fun f => !strContains s f
      if missing.isEmpty then .error (genericLLMErr (attrErrStr "str"))
      else .error ⟨"json_parse", missingMsg missing s⟩
  | .null => .error (genericLLMErr (typeErrStr "NoneType"))
  | .bool _ => .error (genericLLMErr (typeErrStr "bool"))
  | .num _ => .error (genericLLMErr (typeErrStr "int"))
  | .numF _ => .error (genericLLMErr (typeErrStr "float"))

/-- The configuration of `LLMNewsParser` relevant to `_call_llm`
(test_Parser.py lines 36-54): `max_text_length` (default 8000) and the
textual form `str(self.timeout)` interpolated into the timeout message
(model name, temperature and credentials do not affect any observable
modelled here). -/
structure ParserConfig where
  maxTextLength : Nat
  timeoutRepr : String

/-- The outcome of one `client.chat.completions.create` call
(test_Parser.py lines 134-146 and its handlers at 178-187): either a
response text (`choices[0].message.content`) or one of the classified
client exceptions. -/
inductive LLMOutcome where
  | success (text : String)
  | timeoutExc
  | connectExc
  | apiExc (msg : String)
  | otherExc (msg : String)

/-- Everything `_call_llm` does with the outcome of the service call
(test_Parser.py lines 146-187): strip the response text, reject an empty
one (`llm_request`), decode it with `json.loads` and validate the result.
On `json.JSONDecodeError` the handler at lines 155-159 itself raises
`NameError` (see `nameErrStr`), which the `except Exception` clause turns
into `ParseError("llm_request", …)`; the `ParseError`s of the validation
stage pass through `except ParseError: raise` unchanged, and the client
exceptions map per lines 178-187. -/
def handleOutcome (cfg : ParserConfig) : LLMOutcome → Except ParseError JObj
  | .success raw =>
      let llmOutput := pyStrip raw
      if llmOutput = "" then .error ⟨"llm_request", "LLM返回空内容"⟩
      else
        match jsonLoads llmOutput with
        | none => .error (genericLLMErr nameErrStr)
        | some v => handleDecoded v
  | .timeoutExc => .error ⟨"llm_request", "LLM请求超时（" ++ cfg.timeoutRepr ++ "秒）"⟩
  | .connectExc => .error ⟨"llm_request", "LLM API连接失败（网络/地址错误）"⟩
  | .apiExc m => .error ⟨"llm_request", "LLM API错误：" ++ m⟩
  | .otherExc m => .error (genericLLMErr m)

/-- The truncation of `_call_llm` (test_Parser.py lines 113-115): text longer
than `max_text_length` is cut to its first `max_text_length` characters;
shorter text passes unchanged. -/
def sentText (maxLen : Nat) (cleanText : String) : String :=
  if cleanText.length > maxLen then pyTake maxLen cleanText else cleanText

/-- The user prompt built at test_Parser.py line 130 around the bounded
text. -/
def mkUserPrompt (t : String) : String := "请解析以下文本，严格按要求返回JSON：\n" ++ t

/-- `_call_llm` (test_Parser.py lines 107-187).  The nondeterministic service
is a parameter mapping the user prompt to the call's outcome; the call is
issued exactly once, on the truncated text. -/
def callLLM (cfg : ParserConfig) (cleanText : String)
    (service : String → LLMOutcome) : Except ParseError JObj :=
  handleOutcome cfg (service (mkUserPrompt (sentText cfg.maxTextLength cleanText)))

/-- `parse` (test_Parser.py lines 189-208): `_clean_html` then `_call_llm`.
The `except ParseError: raise` clause re-raises classified failures
unchanged; the `except Exception` clause (stage `unknown`) is unreachable in
this model because both stages only ever raise `ParseError`. -/
def parseNews (cfg : ParserConfig) (rawData : String)
    (service : String → LLMOutcome) : Except ParseError JObj :=
  match cleanHtml rawData with
  | .error e => .error e
  | .ok ct => callLLM cfg ct service

/-- The opening/closing fence of a Markdown code block. -/
def fenceCs : List Char := "```".data

/-- `_clean_llm_json` (test_Parser.py lines 91-105): when
`re.search(r"```(?:json)?\s*(.*?)\s*```", s, re.DOTALL)` matches, the fenced
content (sans surrounding whitespace) is returned; else the substring from
the first `{` to the last `}`, stripped; else the stripped input.  The lazy
group makes the closing fence the earliest fence after the opening one, so
the search is modelled by two sublist searches.  NOTE: this helper is defined
in the source but never called by `_call_llm`. -/
def cleanLlmJson (s : String) : String :=
  let cs := s.data
  match findSub fenceCs cs with
  | some i =>
      let afterOpen := cs.drop (i + 3)
      let afterJson :=
        if "json".data.isPrefixOf afterOpen then afterOpen.drop 4 else afterOpen
      let body := afterJson.dropWhile pyWSc
      match findSub fenceCs body with
      | some k => pyStrip (String.mk (body.take k))
      | none => braceFallback s
  | none => braceFallback s
where
  /-- Lines 99-105: first `{` to last `}`, stripped; else the stripped
  input.  An empty Python slice (start past end) yields `""`, matched by
  truncated `Nat` subtraction. -/
  braceFallback (s : String) : String :=
    let cs := s.data
    match findSub ['\x7b'] cs with
    | none => pyStrip s
    | some st =>
        match findSub ['\x7d'] cs.reverse with
        | none => pyStrip s
        | some rj =>
            let en := cs.length - 1 - rj
            pyStrip (String.mk ((cs.drop st).take (en + 1 - st)))

/-- The classified steps a `ParseError` may carry.  `unknown` is produced by
the catch-all of `parse` (test_Parser.py lines 205-208). -/
def parseSteps : List String := ["html_clean", "llm_request", "json_parse", "not_news", "unknown"]

/-- Every failure of the result `r` carries a step from the classified
taxonomy. -/
def classifiedStep {α : Type} (r : Except ParseError α) : Prop :=
  match r with
  | .ok _ => True
  | .error e => e.step ∈ parseSteps

/-- No two adjacent characters of the list both satisfy `p`. -/
def noAdjB (p : Char → Bool) : List Char → Bool
  | [] => true
  | [_] => true
  | a :: b :: rest => !(p a && p b) && noAdjB p (b :: rest)

/-- Already-clean text in the sense of the idempotence property: non-empty
plain text (no markup delimiter `<`, no entity `&`), no tab, no run of two
spaces, no run of two newlines, and no leading or trailing whitespace. -/
def isCleanText (x : String) : Prop :=
  x.data ≠ [] ∧ '<' ∉ x.data ∧ '&' ∉ x.data ∧ '\t' ∉ x.data ∧
  noAdjB isHTc x.data = true ∧ noAdjB isNLc x.data = true ∧
  pyWSc (x.data.headD 'a') = false ∧ pyWSc (x.data.getLastD 'a') = false

/-!  The Fetcher (test-Fetcher.py).  The HTTP transport is a parameter
mapping the attempt index to that attempt's outcome; the rotated
`User-Agent` and the fixed `Accept`/`Accept-Language` headers (lines 95-100)
influence no observable modelled here.  A fetch is summarised by its trace:
how many attempts were issued, the `asyncio.sleep` durations in order, and
the final outcome. -/

/-- The transport-level outcome of one `client.get` + `raise_for_status`
(test-Fetcher.py lines 103-107 and the handlers at 126-145): the payload
bytes on success, else one of the classified exceptions. -/
inductive AttemptResult where
  | success (content : List Nat)
  | httpStatus (code : Nat)
  | timeoutExc
  | connectExc
  | otherExc (msg : String)

/-- Did the attempt reach `response.content`? -/
def isSuccessA : AttemptResult → Bool
  | .success _ => true
  | _ => false

/-- The payload of a successful attempt. -/
def contentOf : AttemptResult → List Nat
  | .success c => c
  | _ => []

/-- `last_error_reason` as captured by the `except` clauses of `fetch`
(test-Fetcher.py lines 126-145). -/
def attemptReason : AttemptResult → String
  | .success _ => ""
  | .httpStatus code => "HTTP状态码错误: " ++ toString code
  | .timeoutExc => "请求超时"
  | .connectExc => "连接失败（DNS/拒绝连接）"
  | .otherExc m => "未知错误: " ++ pyTake 200 m

/-- The final outcome of `fetch`: the returned content, a
`ContentValidationError(url, reason)` (its stored reason already carries the
`"内容校验失败: "` prefix added by its constructor, lines 23-26), or the
terminal `FetchError(url, reason)` of line 157. -/
inductive FetchResult where
  | ok (content : List Nat)
  | contentRejected (url : String) (reason : String)
  | failed (url : String) (reason : String)
deriving DecidableEq

/-- The observable trace of one `fetch` call. -/
structure FetchTrace where
  attempts : Nat
  sleeps : List ℚ
  result : FetchResult
deriving DecidableEq

/-- The retry configuration of `NewsFetcher.__init__` (test-Fetcher.py
lines 49-60): `max_retries` (default 3) and `backoff_base` (default 1.0,
modelled as a rational).  The constructor enforces no lower bound on
`max_retries`. -/
structure FetcherConfig where
  maxRetries : Nat
  backoffBase : ℚ

/-- The reason of a `ContentValidationError` (test-Fetcher.py lines 23-26
and 115-118): the constructor prefix around the f-string of line 117. -/
def validationReason (content : List Nat) : String :=
  "内容校验失败: 内容未通过校验（长度: " ++ toString content.length ++ " 字节）"

/-- The retry loop of `fetch` (test-Fetcher.py lines 91-157), one call per
loop iteration still to run.  `attempt` is the Python loop index, `remaining`
the number of iterations left (`max_retries - attempt`), `lastReason` the
current `last_error_reason`.  A successful attempt validates and returns
immediately (`ContentValidationError` is re-raised, not retried, lines
123-125); a failed attempt records its reason and, unless it was the last
iteration (`attempt < max_retries - 1`, line 148), sleeps
`backoff_base * 2 ** attempt` (line 149) and continues; an exhausted loop
raises `FetchError(url, last_error_reason)` (line 157). -/
def fetchLoop (cfg : FetcherConfig) (validator : Option (List Nat → Bool))
    (url : String) (transport : Nat → AttemptResult) :
    Nat → Nat → String → FetchTrace
  | _, 0, lastReason => ⟨0, [], .failed url lastReason⟩
  | attempt, remaining + 1, _ =>
      match transport attempt with
      | .success content =>
          match validator with
          | some v =>
              if v content then ⟨1, [], .ok content⟩
              else ⟨1, [], .contentRejected url (validationReason content)⟩
          | none => ⟨1, [], .ok content⟩
      | failure =>
          let reason := attemptReason failure
          if remaining = 0 then ⟨1, [], .failed url reason⟩
          else
            let rest := fetchLoop cfg validator url transport (attempt + 1) remaining reason
            ⟨rest.attempts + 1, cfg.backoffBase * 2 ^ attempt :: rest.sleeps, rest.result⟩

/-- `NewsFetcher.fetch` (test-Fetcher.py lines 77-157): run the loop from
attempt 0 with `last_error_reason = ""` (line 91). -/
def NewsFetcher.fetch (cfg : FetcherConfig) (validator : Option (List Nat → Bool))
    (url : String) (transport : Nat → AttemptResult) : FetchTrace :=
  fetchLoop cfg validator url transport 0 cfg.maxRetries ""

instance isCleanTextDec (x : String) : Decidable (isCleanText x) := by
  unfold isCleanText; infer_instance

/-!  Helper lemmas. -/

theorem fetchLoop_all_fail (cfg : FetcherConfig) (validator : Option (List Nat → Bool))
    (url : String) (transport : Nat → AttemptResult) :
    ∀ remaining attempt lastReason, 1 ≤ remaining →
    (∀ i, attempt ≤ i → i < attempt + remaining → isSuccessA (transport i) = false) →
    fetchLoop cfg validator url transport attempt remaining lastReason =
      ⟨remaining,
       (List.range' attempt (remaining - 1)).map (fun i => cfg.backoffBase * 2 ^ i),
       .failed url (attemptReason (transport (attempt + remaining - 1)))⟩ := by
  intro remaining
  induction remaining with
  | zero => intro attempt lastReason h; omega
  | succ r ih =>
      intro attempt lastReason _ hfail
      have h0 : isSuccessA (transport attempt) = false := hfail attempt le_rfl (by omega)
      cases htr : transport attempt with
      | success c => rw [htr] at h0; simp [isSuccessA] at h0
      | _ =>
          rw [fetchLoop, htr]
          cases r with
          | zero => simp [← htr, List.range']
          | succ r' =>
              have hr := ih (attempt + 1) (attemptReason (transport attempt)) (by omega)
                (fun i h1 h2 => hfail i (by omega) (by omega))
              rw [htr] at hr
              simp only [Nat.succ_ne_zero, if_false, hr]
              have hidx : attempt + 1 + (r' + 1) - 1 = attempt + (r' + 1 + 1) - 1 := by omega
              have hrng : r' + 1 + 1 - 1 = r' + 1 := by omega
              rw [hidx, hrng, List.range'_succ, List.map_cons]
              simp

theorem classified_cleanHtml (raw : String) : classifiedStep (cleanHtml raw) := by
  rw [cleanHtml]
  split
  · exact (by decide : "html_clean" ∈ parseSteps)
  · trivial

theorem classified_validateObj (fields : JObj) : classifiedStep (validateObj fields) := by
  rw [validateObj]
  split
  · split
    · exact (by decide : "not_news" ∈ parseSteps)
    · trivial
  · exact (by decide : "json_parse" ∈ parseSteps)

theorem classified_handleDecoded (v : JValue) : classifiedStep (handleDecoded v) := by
  cases v with
  | obj fields => exact classified_validateObj fields
  | arr xs =>
      rw [handleDecoded]
      split
      · exact (by decide : "llm_request" ∈ parseSteps)
      · exact (by decide : "json_parse" ∈ parseSteps)
  | str s =>
      rw [handleDecoded]
      split
      · exact (by decide : "llm_request" ∈ parseSteps)
      · exact (by decide : "json_parse" ∈ parseSteps)
  | null => exact (by decide : "llm_request" ∈ parseSteps)
  | bool b => exact (by decide : "llm_request" ∈ parseSteps)
  | num n => exact (by decide : "llm_request" ∈ parseSteps)
  | numF l => exact (by decide : "llm_request" ∈ parseSteps)

theorem classified_handleOutcome (cfg : ParserConfig) (o : LLMOutcome) :
    classifiedStep (handleOutcome cfg o) := by
  cases o with
  | success raw =>
      rw [handleOutcome]
      split
      · exact (by decide : "llm_request" ∈ parseSteps)
      · split
        · exact (by decide : "llm_request" ∈ parseSteps)
        · exact classified_handleDecoded _
  | timeoutExc => exact (by decide : "llm_request" ∈ parseSteps)
  | connectExc => exact (by decide : "llm_request" ∈ parseSteps)
  | apiExc m => exact (by decide : "llm_request" ∈ parseSteps)
  | otherExc m => exact (by decide : "llm_request" ∈ parseSteps)

theorem scanHtml_text_nolt (cs : List Char) (h : '<' ∉ cs) :
    ∀ cur acc, scanHtml .text cs cur acc = pushRun (cs.reverse ++ cur) acc := by
  induction cs with
  | nil => intro cur acc; simp [scanHtml]
  | cons c rest ih =>
      intro cur acc
      have hc : ¬(c = '<') := fun e => h (by rw [e]; exact List.mem_cons_self _ _)
      have hr : '<' ∉ rest := fun m => h (List.mem_cons_of_mem _ m)
      rw [scanHtml.eq_def]
      simp only [if_neg hc]
      rw [ih hr]
      simp

theorem collapseRuns_id (p : Char → Bool) (rep : Char) (l : List Char)
    (hall : ∀ c ∈ l, p c = true → c = rep)
    (hadj : noAdjB p l = true) : collapseRuns p rep l = l := by
  induction l with
  | nil => rfl
  | cons a tail ih =>
      cases tail with
      | nil =>
          rw [collapseRuns]
          by_cases hp : p a = true
          · rw [if_pos hp, hall a (List.mem_cons_self _ _) hp]
          · rw [if_neg hp]
      | cons b rest =>
          rw [noAdjB, Bool.and_eq_true] at hadj
          have hab : (p a && p b) = false := by
            have h1 := hadj.1
            cases hpa : p a <;> cases hpb : p b <;> simp_all
          have htail := ih (fun c hc hpc => hall c (List.mem_cons_of_mem _ hc) hpc) hadj.2
          rw [collapseRuns, hab]
          simp only [Bool.false_eq_true, if_false]
          by_cases hp : p a = true
          · rw [if_pos hp, htail, hall a (List.mem_cons_self _ _) hp]
          · rw [if_neg hp, htail]

theorem dropWhile_reverse_id (l : List Char) (h : pyWSc (l.getLastD 'a') = false) :
    l.reverse.dropWhile pyWSc = l.reverse := by
  cases hr : l.reverse with
  | nil => rfl
  | cons d t =>
      have hd : l.getLast? = some d := by
        rw [← List.head?_reverse, hr]; rfl
      have hdl : l.getLastD 'a' = d := by
        rw [List.getLastD_eq_getLast?, hd]; rfl
      rw [List.dropWhile_cons_of_neg]
      rw [hdl] at h
      simp [h]

theorem stripWSBoth_id (l : List Char) (h1 : pyWSc (l.headD 'a') = false)
    (h2 : pyWSc (l.getLastD 'a') = false) : stripWSBoth l = l := by
  cases l with
  | nil => rfl
  | cons c rest =>
      have hd : pyWSc c = false := by simpa using h1
      rw [stripWSBoth, List.dropWhile_cons_of_neg (by simp [hd]),
        dropWhile_reverse_id (c :: rest) h2, List.reverse_reverse]

theorem cleanHtml_clean_id (x : String) (h : isCleanText x) : cleanHtml x = .ok x := by
  obtain ⟨hne, hlt, ham, htab, hsp, hnl, hhd, hlast⟩ := h
  have hscan : scanHtml .text x.data [] [] = [x.data] := by
    rw [scanHtml_text_nolt x.data hlt [] [], pushRun]
    simp [hne]
  have hht : collapseRuns isHTc ' ' x.data = x.data := by
    apply collapseRuns_id
    · intro c hc hpc
      rcases (by simpa [isHTc] using hpc : c = ' ' ∨ c = '\t') with h | h
      · exact h
      · exact absurd (h ▸ hc) htab
    · exact hsp
  have hnl2 : collapseRuns isNLc '\n' x.data = x.data := by
    apply collapseRuns_id
    · intro c hc hpc; simpa [isNLc] using hpc
    · exact hnl
  have hstrip : stripWSBoth x.data = x.data := stripWSBoth_id x.data hhd hlast
  have hjoin : joinNL [x.data] = x.data := rfl
  rw [cleanHtml, cleanHtmlChars, hscan, hjoin, hht, hnl2, hstrip, if_neg hne]

/-!  The claims. -/

/-- C3: for every retry policy with `max_retries = N ≥ 1` and every transport
failing with a retryable failure on all attempts, `fetch` issues exactly `N`
attempts, sleeps `backoff_base * 2 ^ i` after each failed attempt
`i < N - 1`, and then raises `FetchError` carrying the reason captured on the
last attempt. -/
theorem C3_retry_exhaustion_trace (cfg : FetcherConfig)
    (validator : Option (List Nat → Bool)) (url : String)
    (transport : Nat → AttemptResult) (hN : 1 ≤ cfg.maxRetries)
    (hfail : ∀ i, i < cfg.maxRetries → isSuccessA (transport i) = false) :
    NewsFetcher.fetch cfg validator url transport =
      ⟨cfg.maxRetries,
       (List.range (cfg.maxRetries - 1)).map (fun i => cfg.backoffBase * 2 ^ i),
       .failed url (attemptReason (transport (cfg.maxRetries - 1)))⟩ := by
  rw [NewsFetcher.fetch,
    fetchLoop_all_fail cfg validator url transport cfg.maxRetries 0 "" hN
      (fun i h1 h2 => hfail i (by omega)), List.range_eq_range']
  norm_num

/-- Witness for C3: three attempts against a transport that always times out,
with `backoff_base = 1`: sleeps `[1, 2]` and the timeout reason survive. -/
theorem C3_retry_exhaustion_trace_witness :
    NewsFetcher.fetch ⟨3, 1⟩ none "https://e.com" (fun _ => .timeoutExc) =
      ⟨3, [1, 2], .failed "https://e.com" "请求超时"⟩ := by
  rw [C3_retry_exhaustion_trace ⟨3, 1⟩ none "https://e.com" (fun _ => .timeoutExc)
    (by norm_num) (fun i _ => rfl)]
  norm_num [List.range_succ, attemptReason]

/-- C4: when the transport succeeds on every attempt but the configured
content validator rejects the delivered payload, `fetch` stops after exactly
one attempt with a `ContentValidationError` outcome, with no retries and no
backoff sleeps. -/
theorem C4_validator_rejection_short_circuits (cfg : FetcherConfig)
    (v : List Nat → Bool) (url : String) (transport : Nat → AttemptResult)
    (hN : 1 ≤ cfg.maxRetries)
    (hsucc : ∀ i, i < cfg.maxRetries → isSuccessA (transport i) = true)
    (hrej : v (contentOf (transport 0)) = false) :
    NewsFetcher.fetch cfg (some v) url transport =
      ⟨1, [], .contentRejected url (validationReason (contentOf (transport 0)))⟩ := by
  obtain ⟨r, hr⟩ : ∃ r, cfg.maxRetries = r + 1 := ⟨cfg.maxRetries - 1, by omega⟩
  have h0 := hsucc 0 (by omega)
  cases htr : transport 0 with
  | success c =>
      rw [htr] at hrej
      rw [NewsFetcher.fetch, hr, fetchLoop, htr]
      simp [contentOf] at hrej
      simp [hrej, contentOf, htr]
  | _ => rw [htr] at h0; simp [isSuccessA] at h0

/-- Witness for C4: a three-attempt policy, an always-successful transport
delivering two bytes, and an always-rejecting validator: one attempt, no
sleep, the validation outcome. -/
theorem C4_validator_rejection_short_circuits_witness :
    NewsFetcher.fetch ⟨3, 1⟩ (some fun _ => false) "https://e.com"
      (fun _ => .success [7, 8]) =
      ⟨1, [], .contentRejected "https://e.com"
        "内容校验失败: 内容未通过校验（长度: 2 字节）"⟩ := by
  rw [C4_validator_rejection_short_circuits ⟨3, 1⟩ (fun _ => false) "https://e.com"
    (fun _ => .success [7, 8]) (by norm_num) (fun i _ => rfl) rfl]
  rfl

/-- C10: with `max_retries = 0` (which `__init__` does not rule out) the loop
body never runs: zero attempts, zero sleeps, and an immediate
`FetchError(url, "")` with the initial empty `last_error_reason`. -/
theorem C10_zero_retries_empty_reason (cfg : FetcherConfig)
    (validator : Option (List Nat → Bool)) (url : String)
    (transport : Nat → AttemptResult) (h : cfg.maxRetries = 0) :
    NewsFetcher.fetch cfg validator url transport = ⟨0, [], .failed url ""⟩ := by
  rw [NewsFetcher.fetch, h, fetchLoop]

/-- Witness for C10: a zero-retry fetcher against a transport that would have
succeeded. -/
theorem C10_zero_retries_empty_reason_witness :
    NewsFetcher.fetch ⟨0, 1⟩ none "https://e.com" (fun _ => .success [1]) =
      ⟨0, [], .failed "https://e.com" ""⟩ :=
  C10_zero_retries_empty_reason ⟨0, 1⟩ none "https://e.com" (fun _ => .success [1]) rfl

/-- C1 (code bug): a service response that is not valid JSON does NOT produce
the intended `ParseError("json_parse", …)` carrying the raw output: building
that error's message dereferences the undefined `clean_json_str`
(test_Parser.py line 158), so a `NameError` escapes to the generic handler
and the failure surfaces as step `llm_request` with the `NameError` text
instead. -/
theorem C1_json_decode_failure_misclassified :
    callLLM ⟨8000, "30.0"⟩ "本文无关" (fun _ => .success "这不是一个JSON对象") =
      .error (genericLLMErr nameErrStr) ∧
    (genericLLMErr nameErrStr).step ≠ "json_parse" :=
  ⟨rfl, by decide⟩

/-- C2 (code bug): for a valid JSON record wrapped in a Markdown code fence,
the `_clean_llm_json` fallback would extract the embedded record (first
conjunct) and that record decodes (second conjunct), but `_call_llm` never
invokes the fallback: `json.loads` receives the fenced text, fails, and the
extraction fails with step `llm_request` (via the `NameError` of C1) instead
of returning the embedded record (third conjunct). -/
theorem C2_fallback_never_applied :
    cleanLlmJson "```json\n\x7b\"title\": \"T\", \"content\": \"C\", \"publish_time\": null, \"author\": null\x7d\n```" =
      "\x7b\"title\": \"T\", \"content\": \"C\", \"publish_time\": null, \"author\": null\x7d" ∧
    jsonLoads "\x7b\"title\": \"T\", \"content\": \"C\", \"publish_time\": null, \"author\": null\x7d" =
      some (.obj [("title", .str "T"), ("content", .str "C"),
        ("publish_time", .null), ("author", .null)]) ∧
    callLLM ⟨8000, "30.0"⟩ "正文"
      (fun _ => .success "```json\n\x7b\"title\": \"T\", \"content\": \"C\", \"publish_time\": null, \"author\": null\x7d\n```") =
      .error (genericLLMErr nameErrStr) :=
  ⟨rfl, rfl, rfl⟩

/-- C5: on the given concrete markup, `_clean_html` removes the script
content, collapses the horizontal-whitespace run, collapses the blank line,
and strips the ends, returning exactly `"Hello world\nLine2"`. -/
theorem C5_clean_html_concrete :
    cleanHtml "<html><body><script>x</script><p>Hello   world</p>\n\n<p>Line2</p></body></html>" =
      .ok "Hello world\nLine2" := by
  rfl

/-- C6: `_clean_html` is idempotent on already-clean text: for every
non-empty markup-free input with no tab, no run of spaces, no run of
newlines, and no leading or trailing whitespace, cleaning the cleaned text
changes nothing. -/
theorem C6_clean_idempotent_on_clean_text (x : String) (h : isCleanText x) :
    (cleanHtml x).bind cleanHtml = cleanHtml x := by
  have hx := cleanHtml_clean_id x h
  rw [hx]
  show cleanHtml x = Except.ok x
  exact hx

/-- Witness for C6 at the two-paragraph clean text of C5's output. -/
theorem C6_clean_idempotent_on_clean_text_witness :
    (cleanHtml "Hello world\nLine2").bind cleanHtml = cleanHtml "Hello world\nLine2" :=
  C6_clean_idempotent_on_clean_text "Hello world\nLine2" (by decide)

/-- C7: the extraction service is called on exactly
`sentText max_text_length cleanText` (first conjunct, the truncation of
test_Parser.py lines 113-115 — a total function, so truncation can raise
nothing); text longer than `max_text_length` is cut to exactly its first
`max_text_length` characters, and text within the bound passes unchanged. -/
theorem C7_truncation_first_chars (cfg : ParserConfig) (s : String)
    (service : String → LLMOutcome) :
    callLLM cfg s service =
      handleOutcome cfg (service (mkUserPrompt (sentText cfg.maxTextLength s))) ∧
    (s.length > cfg.maxTextLength →
      sentText cfg.maxTextLength s = pyTake cfg.maxTextLength s ∧
      (sentText cfg.maxTextLength s).length = cfg.maxTextLength) ∧
    (s.length ≤ cfg.maxTextLength → sentText cfg.maxTextLength s = s) := by
  refine ⟨rfl, fun hgt => ⟨if_pos hgt, ?_⟩, fun hle => if_neg (by omega)⟩
  rw [sentText, if_pos hgt, pyTake]
  show (s.data.take cfg.maxTextLength).length = cfg.maxTextLength
  rw [List.length_take]
  have : s.length = s.data.length := rfl
  omega

/-- Witness for C7: a five-character text against bounds 3 and 8. -/
theorem C7_truncation_first_chars_witness :
    sentText 3 "abcde" = "abc" ∧ sentText 8 "abcde" = "abcde" := by
  have h1 := (C7_truncation_first_chars ⟨3, "30.0"⟩ "abcde" (fun _ => .timeoutExc)).2.1 (by decide)
  have h2 := (C7_truncation_first_chars ⟨8, "30.0"⟩ "abcde" (fun _ => .timeoutExc)).2.2 (by decide)
  exact ⟨h1.1.trans rfl, h2⟩

/-- C8: whenever the service's output decodes to an object containing all
four required fields with `title` and `content` both null, `_call_llm` fails
with step `not_news` — whatever `publish_time` and `author` hold — and the
record is never returned as a success. -/
theorem C8_null_title_content_not_news (cfg : ParserConfig) (ct : String)
    (s : String) (fields : JObj)
    (hdec : jsonLoads (pyStrip s) = some (.obj fields))
    (hpt : (jGet fields "publish_time").isSome = true)
    (hau : (jGet fields "author").isSome = true)
    (ht : jGet fields "title" = some .null)
    (hc : jGet fields "content" = some .null) :
    callLLM cfg ct (fun _ => .success s) =
      .error ⟨"not_news", "该页面不是有效的新闻内容（无标题和正文）"⟩ := by
  have hnone : jsonLoads "" = none := rfl
  have hne : ¬(pyStrip s = "") := fun he => by rw [he, hnone] at hdec; cases hdec
  obtain ⟨pv, hpv⟩ := Option.isSome_iff_exists.mp hpt
  obtain ⟨av, hav⟩ := Option.isSome_iff_exists.mp hau
  show handleOutcome cfg (.success s) = _
  simp only [handleOutcome, if_neg hne, hdec]
  simp only [handleDecoded, validateObj, requiredFields, List.filter, ht, hc, hpv, hav,
    Option.isNone_some, List.isEmpty_nil]
  simp

/-- Witness for C8: a response whose `title`/`content` are null while
`publish_time` and `author` are non-null still fails as `not_news`. -/
theorem C8_null_title_content_not_news_witness :
    callLLM ⟨8000, "30.0"⟩ "正文"
      (fun _ => .success "\x7b\"title\": null, \"content\": null, \"publish_time\": \"2026-02-20T09:30:00+08:00\", \"author\": \"李明\"\x7d") =
      .error ⟨"not_news", "该页面不是有效的新闻内容（无标题和正文）"⟩ :=
  C8_null_title_content_not_news ⟨8000, "30.0"⟩ "正文"
    "\x7b\"title\": null, \"content\": null, \"publish_time\": \"2026-02-20T09:30:00+08:00\", \"author\": \"李明\"\x7d"
    [("title", .null), ("content", .null),
      ("publish_time", .str "2026-02-20T09:30:00+08:00"), ("author", .str "李明")]
    rfl rfl rfl rfl rfl

/-- C9: every failure of `parse` carries a step from the classified taxonomy
`{html_clean, llm_request, json_parse, not_news, unknown}`, whatever the
input and however the service behaves: no unclassified failure reaches the
caller. -/
theorem C9_parse_failures_classified (cfg : ParserConfig) (raw : String)
    (service : String → LLMOutcome) :
    classifiedStep (parseNews cfg raw service) := by
  rw [parseNews]
  cases hc : cleanHtml raw with
  | error e =>
      have hcl := classified_cleanHtml raw
      rw [hc] at hcl
      exact hcl
  | ok ct => exact classified_handleOutcome cfg _
